import Mathlib

set_option maxRecDepth 100000

/-!
Verification development for the SmartFrame scraper (server/scraper.ts,
server/storage.ts, shared/schema.ts).  The TypeScript source is shallowly
embedded: JS strings become `List Char`/`String`, `string | null` becomes
`Option String`, the mutable-record pipelines become pure folds, and the
browser page is an abstract state with observation/transition functions.
-/

namespace SmartFrame

/-! ## JavaScript string primitives -/

/-- JS `a || b` restricted to `string | null` values: `null` and `""` are falsy. -/
def jsOrS : Option String → Option String → Option String
  | some s, b => if s = "" then b else some s
  | none, b => b

/-- JS truthiness of a `string | null | undefined` value. -/
def jsTruthy : Option String → Bool
  | some s => s ≠ ""
  | none => false

/-- Whitespace class used by JS `trim` and regex `\s` (ASCII part). -/
def isJsSpace (c : Char) : Bool :=
  c = ' ' ∨ c = '\t' ∨ c = '\n' ∨ c = '\r' ∨ c = '\x0b' ∨ c = '\x0c'

/-- JS `String.prototype.trim` on a character list. -/
def jsTrim (l : List Char) : List Char :=
  ((l.dropWhile isJsSpace).reverse.dropWhile isJsSpace).reverse

/-- JS `String.prototype.toLowerCase` (ASCII part), over a character list. -/
def lowerList (l : List Char) : List Char :=
  l.map Char.toLower

/-- JS `String.prototype.toLowerCase` on a string. -/
def jsToLower (s : String) : String :=
  String.mk (lowerList s.toList)

/-- Whether `needle` occurs at the start of `hay`. -/
def startsWithList : List Char → List Char → Bool
  | _, [] => true
  | [], _ :: _ => false
  | c :: cs, d :: ds => c = d && startsWithList cs ds

/-- JS `hay.includes(needle)`, on character lists. -/
def includesSub (hay needle : List Char) : Bool :=
  if startsWithList hay needle then true
  else
    match hay with
    | [] => false
    | _ :: rest => includesSub rest needle

/-- JS `Math.round (num / den)` for nonnegative rationals: round half up. -/
def jsRound (num den : Nat) : Nat :=
  (2 * num + den) / (2 * den)

/-- JS `s.split(',')` on a character list. -/
def splitOnComma : List Char → List (List Char)
  | [] => [[]]
  | c :: rest =>
    if c = ',' then [] :: splitOnComma rest
    else
      match splitOnComma rest with
      | h :: t => (c :: h) :: t
      | [] => [[c]]

/-! ## Sanitizer: `cleanTextHelper` (scraper.ts lines 874-908) -/

/-- Script/event-handler keywords rejected by the sanitizer (first `if`). -/
def suspiciousKeywords : List String :=
  ["script", "iframe", "onclick", "onerror", "onload"]

/-- Non-metadata UI phrases rejected by the sanitizer (second `if`). -/
def uiBlocklist : List String :=
  ["add to board", "copy link", "copy embed", "google tag manager",
   "smartframe content partner"]

/-- The rejection phrases named by the specification (the source's two
lists additionally contain "google tag manager" and "smartframe content
partner"). -/
def specRejectPhrases : List String :=
  ["script", "iframe", "onclick", "onerror", "onload",
   "add to board", "copy link", "copy embed"]

/-- The early-rejection test of `cleanTextHelper`: the lowercased raw text
contains a suspicious keyword or a blocklisted UI phrase. -/
def rejectText (text : List Char) : Bool :=
  let lower := lowerList text
  suspiciousKeywords.any (fun k => includesSub lower k.toList)
    || uiBlocklist.any (fun k => includesSub lower k.toList)

/-- The remainder of the list after its first `'>'`, if any. -/
def afterGt : List Char → Option (List Char)
  | [] => none
  | c :: rest => if c = '>' then some rest else afterGt rest

theorem afterGt_length_lt :
    ∀ (l after : List Char), afterGt l = some after → after.length < l.length := by
  intro l
  induction l with
  | nil => intro after h; simp [afterGt] at h
  | cons c rest ih =>
    intro after h
    by_cases hc : c = '>'
    · simp [afterGt, hc] at h
      simp [← h]
    · simp [afterGt, hc] at h
      have := ih after h
      simp
      omega

/-- Global replace of `/<[^>]*>/g` by the empty string: each `<` together
with everything up to and including the next `>` is dropped.  The fuel is
an upper bound on the input length, making the recursion structural. -/
def removeTagsF : Nat → List Char → List Char
  | _, [] => []
  | 0, l => l
  | fuel + 1, c :: rest =>
    if c = '<' then
      match afterGt rest with
      | some after => removeTagsF fuel after
      | none => c :: removeTagsF fuel rest
    else c :: removeTagsF fuel rest

/-- Global replace of `/<[^>]*>/g` by the empty string. -/
def removeTags (l : List Char) : List Char :=
  removeTagsF l.length l

/-- Replace of `/^<[^>]*/` by the empty string: a leading `<` and the
following run of non-`>` characters are dropped. -/
def stripLead (l : List Char) : List Char :=
  match l with
  | c :: rest => if c = '<' then rest.dropWhile (fun ch => ch ≠ '>') else l
  | [] => l

/-- Replace of `/[^<]*>$/` by the empty string: when the text ends with `>`,
everything after the last `<` before it (or the whole text) is dropped. -/
def stripTrail (l : List Char) : List Char :=
  match l.reverse with
  | c :: rest => if c = '>' then (rest.dropWhile (fun ch => ch ≠ '<')).reverse else l
  | [] => l

/-- `text.split('\n').length`. -/
def lineCount (l : List Char) : Nat :=
  (l.filter (fun c => c = '\n')).length + 1

/-- The four-step strip pipeline of `cleanTextHelper`: complete tags, a
leading incomplete tag, a trailing incomplete tag, remaining angle
brackets, then `trim`. -/
def stripPipeline (text : List Char) : List Char :=
  jsTrim ((stripTrail (stripLead (removeTags text))).filter
    (fun ch => ¬(ch = '<' ∨ ch = '>')))

/-- Core of `cleanTextHelper` on a character list: `none` is JS `null`. -/
def cleanList (text : List Char) : Option (List Char) :=
  if text = [] then none
  else if rejectText text then none
  else if 200 < (stripPipeline text).length then none
  else if 3 < lineCount (stripPipeline text) then none
  else if stripPipeline text = [] then none
  else some (stripPipeline text)

/-- `cleanTextHelper(text: string | null): string | null`. -/
def cleanTextHelper (t : Option String) : Option String :=
  match t with
  | none => none
  | some s =>
    match cleanList s.toList with
    | none => none
    | some l => some (String.mk l)

/-! ## Caption regexes (scraper.ts lines 969-999)

The four fallback regexes all have the shape
`/(?:L1|L2):\s*([^\/\n]+)/i`: a label alternation, a colon, optional
whitespace, and a nonempty capture of characters other than `/` and
newline.  They are matched leftmost-first with backtracking on `\s*`. -/

/-- Backtracking for `\s*([^\/\n]+)`: try the largest whitespace skip `k`
first and decrement until the capture is nonempty. -/
def capAt : Nat → List Char → Option (List Char)
  | k, rest =>
    let cap := (rest.drop k).takeWhile (fun c => ¬(c = '/' ∨ c = '\n'))
    if cap = [] then
      match k with
      | 0 => none
      | k' + 1 => capAt k' rest
    else some cap

/-- Match `\s*([^\/\n]+)` at the start of `rest`. -/
def matchAfterLabel (rest : List Char) : Option (List Char) :=
  capAt ((rest.takeWhile isJsSpace).length) rest

/-- Try each label alternative (given lowercase, with its trailing colon) as a
case-insensitive match at the start of `s`, then the capture group. -/
def tryLabelsAt (labels : List (List Char)) (s : List Char) : Option (List Char) :=
  labels.findSome? fun lab =>
    if lowerList (s.take lab.length) = lab then matchAfterLabel (s.drop lab.length)
    else none

/-- Scan left to right for the first position where the labeled pattern
matches; return the captured group. -/
def scanForLabel (labels : List (List Char)) : List Char → Option (List Char)
  | [] => none
  | c :: rest =>
    match tryLabelsAt labels (c :: rest) with
    | some cap => some cap
    | none => scanForLabel labels rest

/-- `caption.match(/(?:L1|L2):\s*([^\/\n]+)/i)`: the first capture group. -/
def findLabeledCapture (labels : List String) (s : String) : Option String :=
  match scanForLabel (labels.map (fun l => l.toList)) s.toList with
  | some cap => some (String.mk cap)
  | none => none

/-! ## Metadata record types -/

/-- The nullable metadata fields of a `ScrapedImage` (shared/schema.ts),
shared by `parseMetadata`'s result and the per-tier supplies. -/
structure Fields where
  photographer : Option String := none
  imageSize : Option String := none
  fileSize : Option String := none
  country : Option String := none
  city : Option String := none
  date : Option String := none
  matchEvent : Option String := none
deriving Repr, DecidableEq

/-- The `nextData` object built from `__NEXT_DATA__` in `page.evaluate`. -/
structure NextData where
  photographer : Option String := none
  dimensions : Option String := none
  fileSize : Option String := none
  country : Option String := none
  city : Option String := none
  date : Option String := none
  eventTitle : Option String := none
  title : Option String := none
  caption : Option String := none
deriving Repr, DecidableEq

/-- The raw data returned by `page.evaluate` in `extractImageData`. -/
structure RawData where
  title : Option String := none
  caption : Option String := none
  labelValues : List (String × String) := []
  nextData : Option NextData := none
deriving Repr, DecidableEq

/-- A `location` sub-object of a network-intercepted payload. -/
structure CachedLocation where
  country : Option String := none
  city : Option String := none
deriving Repr, DecidableEq

/-- The relevant keys of a payload stored in the network metadata cache. -/
structure CachedData where
  photographer : Option String := none
  credit : Option String := none
  author : Option String := none
  dimensions : Option String := none
  size : Option String := none
  imageSize : Option String := none
  fileSize : Option String := none
  file_size : Option String := none
  country : Option String := none
  city : Option String := none
  location : Option CachedLocation := none
  date : Option String := none
  dateCreated : Option String := none
  created_at : Option String := none
  title : Option String := none
  event : Option String := none
  description : Option String := none
deriving Repr, DecidableEq

/-- A scraped image record (shared/schema.ts `scrapedImageSchema`). -/
structure ScrapedImage where
  imageId : String
  hash : String
  url : String
  copyLink : String
  smartframeId : String
  photographer : Option String
  imageSize : Option String
  fileSize : Option String
  country : Option String
  city : Option String
  date : Option String
  matchEvent : Option String
  thumbnailUrl : Option String
deriving Repr, DecidableEq

/-! ## `parseMetadata` (scraper.ts lines 910-1013) -/

/-- One step of the label-value loop: the lowercased label is dispatched
through the `switch`, each field filled only when still null. -/
def applyLabel (r : Fields) (label : String) (value : String) : Fields :=
  if label = "photographer" ∨ label = "credit" then
    { r with photographer := jsOrS r.photographer (some value) }
  else if label = "image size" ∨ label = "size" ∨ label = "dimensions" then
    { r with imageSize := jsOrS r.imageSize (some value) }
  else if label = "file size" then
    { r with fileSize := jsOrS r.fileSize (some value) }
  else if label = "country" then
    { r with country := jsOrS r.country (some value) }
  else if label = "city" ∨ label = "location" then
    { r with city := jsOrS r.city (some value) }
  else if label = "date" ∨ label = "date taken" then
    { r with date := jsOrS r.date (some value) }
  else if label = "event" ∨ label = "title" ∨ label = "caption" ∨ label = "description" then
    { r with matchEvent := jsOrS r.matchEvent (some value) }
  else r

/-- The `for (const item of rawData.labelValues)` loop: clean each value,
skip falsy ones, dispatch on the lowercased label. -/
def labelFold (items : List (String × String)) : Fields :=
  items.foldl
    (fun r item =>
      match cleanTextHelper (some item.2) with
      | none => r
      | some v => applyLabel r (jsToLower item.1) v)
    {}

/-- The `if (!result.photographer)` credit-regex block. -/
def creditStep (c : String) (r : Fields) : Fields :=
  if r.photographer = none then
    match findLabeledCapture ["credit:", "photographer:"] c with
    | some cap => { r with photographer := cleanTextHelper (some cap) }
    | none => r
  else r

/-- The `if (!result.city && !result.country)` where-regex block, with the
comma split of the location. -/
def whereStep (c : String) (r : Fields) : Fields :=
  if r.city = none ∧ r.country = none then
    match findLabeledCapture ["where:"] c with
    | some cap =>
      match cleanTextHelper (some cap) with
      | some loc =>
        if loc.toList.contains ',' then
          let parts := (splitOnComma loc.toList).map jsTrim
          { r with city := cleanTextHelper (some (String.mk (parts.getD 0 []))),
                   country := cleanTextHelper (some (String.mk (parts.getD 1 []))) }
        else { r with city := some loc }
      | none => { r with city := none }
    | none => r
  else r

/-- The `if (!result.date)` when-regex block. -/
def whenStep (c : String) (r : Fields) : Fields :=
  if r.date = none then
    match findLabeledCapture ["when:"] c with
    | some cap => { r with date := cleanTextHelper (some cap) }
    | none => r
  else r

/-- The `if (!result.matchEvent)` featuring-regex block. -/
def featuringStep (c : String) (r : Fields) : Fields :=
  if r.matchEvent = none then
    match findLabeledCapture ["featuring:"] c with
    | some cap => { r with matchEvent := cleanTextHelper (some cap) }
    | none => r
  else r

/-- The `if (caption) { ... }` regex-fallback block, applied to the cleaned
caption: the four guarded regex blocks in source order. -/
def captionFallback (caption : Option String) (r0 : Fields) : Fields :=
  match caption with
  | none => r0
  | some c => featuringStep c (whenStep c (whereStep c (creditStep c r0)))

/-- The `if (rawData.nextData) { ... }` block: each field filled from the
cleaned `__NEXT_DATA__` value only when still null. -/
def nextDataMerge (nd : Option NextData) (r : Fields) : Fields :=
  match nd with
  | none => r
  | some d =>
    { photographer := jsOrS r.photographer (cleanTextHelper d.photographer)
      imageSize := jsOrS r.imageSize (cleanTextHelper d.dimensions)
      fileSize := jsOrS r.fileSize (cleanTextHelper d.fileSize)
      country := jsOrS r.country (cleanTextHelper d.country)
      city := jsOrS r.city (cleanTextHelper d.city)
      date := jsOrS r.date (cleanTextHelper d.date)
      matchEvent := jsOrS r.matchEvent
        (cleanTextHelper (jsOrS d.eventTitle (jsOrS d.title d.caption))) }

/-- `parseMetadata(rawData)`: label-value pass, title/caption fallback for
`matchEvent`, caption regex fallback, then `__NEXT_DATA__` merge. -/
def parseMetadata (rd : RawData) : Fields :=
  let title := cleanTextHelper rd.title
  let caption := cleanTextHelper rd.caption
  let r1 := labelFold rd.labelValues
  let r2 := { r1 with matchEvent := jsOrS r1.matchEvent (jsOrS title caption) }
  let r3 := captionFallback caption r2
  nextDataMerge rd.nextData r3

/-! ## Navigation retry loops (scraper.ts lines 130-150 and 1059-1077)

The page-navigation oracle maps an attempt number (1-based) to whether
`page.goto` succeeds on that attempt.  A retry loop returns the successful
attempt number (or `none` when all attempts fail) together with the list of
backoff delays awaited after failed attempts. -/

/-- A retry loop over attempts `a, a+1, ...` with `remaining` attempts left;
the delay after a failed non-final attempt is `delayOf attempt`.  A failure
on the final attempt produces `none` (listing: the error is re-thrown;
detail: the function returns the partial record). -/
def navigateFrom (oracle : Nat → Bool) (delayOf : Nat → Nat) :
    Nat → Nat → Option Nat × List Nat
  | _, 0 => (none, [])
  | a, remaining + 1 =>
    if oracle a then (some a, [])
    else if remaining = 0 then (none, [])
    else
      let (res, ds) := navigateFrom oracle delayOf (a + 1) remaining
      (res, delayOf a :: ds)

/-- Listing navigation: `maxAttempts = 3`, backoff `2000 * attempts`. -/
def listingNavigate (oracle : Nat → Bool) : Option Nat × List Nat :=
  navigateFrom oracle (fun a => 2000 * a) 1 3

/-- Detail navigation: `attempt <= 2`, fixed `2000` ms delay between attempts. -/
def detailNavigate (oracle : Nat → Bool) : Option Nat × List Nat :=
  navigateFrom oracle (fun _ => 2000) 1 2

/-- Modelled from the spec: the claim's navigation profile of "up to 3
attempts with exponential backoff (base delay × attempt)" applied to the
detail page, for comparison with `detailNavigate`. -/
def specDetailNavigate (oracle : Nat → Bool) : Option Nat × List Nat :=
  navigateFrom oracle (fun a => 2000 * a) 1 3

/-- `waitUntil` and timeout of the listing `page.goto` call. -/
def listingGotoProfile : String × Nat := ("networkidle2", 60000)

/-- `waitUntil` and timeout of the detail `page.goto` call. -/
def detailGotoProfile : String × Nat := ("domcontentloaded", 60000)

/-! ## `extractImageData` (scraper.ts lines 1015-1172) -/

/-- The inputs of one `extractImageData` call: the reference data, the
cached network payload for this id (if any), whether detail extraction is
enabled, the navigation oracle for the detail page, and the result of
`page.evaluate` (`none` models a thrown evaluation, captured by the
enclosing `catch`). -/
structure ExtractInputs where
  imageId : String
  hash : String
  url : String
  thumbnailUrl : Option String := none
  cached : Option CachedData := none
  extractDetails : Bool := true
  navOracle : Nat → Bool := fun _ => true
  evalResult : Option RawData := none

/-- The record as built before the detail-page block: identity fields from
the reference, then the network-cache mapping (Tier 0). -/
def baseImage (inp : ExtractInputs) : ScrapedImage :=
  let image : ScrapedImage :=
    { imageId := inp.imageId
      hash := inp.hash
      url := inp.url
      copyLink := inp.url
      smartframeId := inp.imageId
      photographer := none
      imageSize := none
      fileSize := none
      country := none
      city := none
      date := none
      matchEvent := none
      thumbnailUrl := jsOrS inp.thumbnailUrl none }
  match inp.cached with
  | none => image
  | some cd =>
    { image with
      photographer := jsOrS cd.photographer (jsOrS cd.credit (jsOrS cd.author none))
      imageSize := jsOrS cd.dimensions (jsOrS cd.size (jsOrS cd.imageSize none))
      fileSize := jsOrS cd.fileSize (jsOrS cd.file_size none)
      country := jsOrS cd.country
        (jsOrS (match cd.location with | some loc => loc.country | none => none) none)
      city := jsOrS cd.city
        (jsOrS (match cd.location with | some loc => loc.city | none => none) none)
      date := jsOrS cd.date (jsOrS cd.dateCreated (jsOrS cd.created_at none))
      matchEvent := jsOrS cd.title (jsOrS cd.event (jsOrS cd.description none)) }

/-- `extractImageData`: Tier 0 from the cache, then (when detail extraction
is enabled and detail navigation succeeds) the `parseMetadata` result merged
field-by-field, the existing value winning. -/
def extractImageData (inp : ExtractInputs) : ScrapedImage :=
  let image := baseImage inp
  if inp.extractDetails then
    match (detailNavigate inp.navOracle).1 with
    | none => image
    | some _ =>
      match inp.evalResult with
      | none => image
      | some rd =>
        let metadata := parseMetadata rd
        { image with
          photographer := jsOrS image.photographer metadata.photographer
          imageSize := jsOrS image.imageSize metadata.imageSize
          fileSize := jsOrS image.fileSize metadata.fileSize
          country := jsOrS image.country metadata.country
          city := jsOrS image.city metadata.city
          date := jsOrS image.date metadata.date
          matchEvent := jsOrS image.matchEvent metadata.matchEvent }
  else image

/-! ## Per-tier field supplies

For the field-population claim the four tiers are isolated as standalone
functions of their own inputs, mirroring the corresponding source blocks:
Tier 0 the network-cache mapping, Tier 1 the structured list parse (with
the title/caption fallback for `matchEvent`), Tier 2 the caption regex
fallback taken unconditionally, Tier 3 the `__NEXT_DATA__` mapping. -/

/-- Tier 0 supply: the network-cache mapping of `extractImageData`. -/
def tier0Fields (cached : Option CachedData) : Fields :=
  match cached with
  | none => {}
  | some cd =>
    { photographer := jsOrS cd.photographer (jsOrS cd.credit (jsOrS cd.author none))
      imageSize := jsOrS cd.dimensions (jsOrS cd.size (jsOrS cd.imageSize none))
      fileSize := jsOrS cd.fileSize (jsOrS cd.file_size none)
      country := jsOrS cd.country
        (jsOrS (match cd.location with | some loc => loc.country | none => none) none)
      city := jsOrS cd.city
        (jsOrS (match cd.location with | some loc => loc.city | none => none) none)
      date := jsOrS cd.date (jsOrS cd.dateCreated (jsOrS cd.created_at none))
      matchEvent := jsOrS cd.title (jsOrS cd.event (jsOrS cd.description none)) }

/-- Tier 1 supply: the label-value pass plus the title/caption fallback for
`matchEvent`. -/
def tier1Fields (rd : RawData) : Fields :=
  let title := cleanTextHelper rd.title
  let caption := cleanTextHelper rd.caption
  let r1 := labelFold rd.labelValues
  { r1 with matchEvent := jsOrS r1.matchEvent (jsOrS title caption) }

/-- Tier 2 supply for city and country: the `Where:` line of the cleaned
caption, split on commas, both parts cleaned. -/
def tier2Loc (c : String) : Option String × Option String :=
  match findLabeledCapture ["where:"] c with
  | some cap =>
    match cleanTextHelper (some cap) with
    | some loc =>
      if loc.toList.contains ',' then
        let parts := (splitOnComma loc.toList).map jsTrim
        (cleanTextHelper (some (String.mk (parts.getD 0 []))),
         cleanTextHelper (some (String.mk (parts.getD 1 []))))
      else (some loc, none)
    | none => (none, none)
  | none => (none, none)

/-- Tier 2 supply: what the caption regex fallback extracts from the
cleaned caption, per field, with no guards. -/
def tier2Fields (caption : Option String) : Fields :=
  match caption with
  | none => {}
  | some c =>
    { photographer :=
        match findLabeledCapture ["credit:", "photographer:"] c with
        | some cap => cleanTextHelper (some cap)
        | none => none
      imageSize := none
      fileSize := none
      country := (tier2Loc c).2
      city := (tier2Loc c).1
      date :=
        match findLabeledCapture ["when:"] c with
        | some cap => cleanTextHelper (some cap)
        | none => none
      matchEvent :=
        match findLabeledCapture ["featuring:"] c with
        | some cap => cleanTextHelper (some cap)
        | none => none }

/-- Tier 3 supply: the cleaned `__NEXT_DATA__` fields. -/
def tier3Fields (nd : Option NextData) : Fields :=
  match nd with
  | none => {}
  | some d =>
    { photographer := cleanTextHelper d.photographer
      imageSize := cleanTextHelper d.dimensions
      fileSize := cleanTextHelper d.fileSize
      country := cleanTextHelper d.country
      city := cleanTextHelper d.city
      date := cleanTextHelper d.date
      matchEvent := cleanTextHelper (jsOrS d.eventTitle (jsOrS d.title d.caption)) }

/-! ## Job storage (storage.ts `MemStorage`) -/

/-- Job status enumeration (shared/schema.ts). -/
inductive JobStatus where
  | pending
  | scraping
  | completed
  | error
deriving Repr, DecidableEq

/-- Scrape configuration (shared/schema.ts `scrapeConfigSchema`). -/
structure ScrapeConfig where
  url : String
  maxImages : Nat := 0
  extractDetails : Bool := true
  autoScroll : Bool := true
  scrollDelay : Nat := 1000
deriving Repr, DecidableEq

/-- A stored scrape job (shared/schema.ts `scrapeJobSchema`). -/
structure ScrapeJob where
  id : String
  url : String
  status : JobStatus
  progress : Nat
  totalImages : Nat
  scrapedImages : Nat
  images : List ScrapedImage
  error : Option String
  startedAt : String
  completedAt : Option String
  config : ScrapeConfig
deriving Repr, DecidableEq

/-- A `Partial<ScrapeJob>` as passed to `updateScrapeJob`: `some` marks a
present key. -/
structure JobUpdate where
  status : Option JobStatus := none
  progress : Option Nat := none
  totalImages : Option Nat := none
  scrapedImages : Option Nat := none
  images : Option (List ScrapedImage) := none
  error : Option (Option String) := none
  completedAt : Option (Option String) := none
deriving Repr, DecidableEq

/-- The spread `{ ...job, ...updates }`: present keys override. -/
def applyUpdate (job : ScrapeJob) (u : JobUpdate) : ScrapeJob :=
  { job with
    status := u.status.getD job.status
    progress := u.progress.getD job.progress
    totalImages := u.totalImages.getD job.totalImages
    scrapedImages := u.scrapedImages.getD job.scrapedImages
    images := u.images.getD job.images
    error := u.error.getD job.error
    completedAt := u.completedAt.getD job.completedAt }

/-- The in-memory store: an association list from job id to job. -/
def MemStorage := List (String × ScrapeJob)

/-- `createScrapeJob` (the random id and timestamp are passed in). -/
def createScrapeJob (m : MemStorage) (id url startedAt : String)
    (config : ScrapeConfig) : MemStorage :=
  (id, { id := id, url := url, status := .pending, progress := 0,
         totalImages := 0, scrapedImages := 0, images := [], error := none,
         startedAt := startedAt, completedAt := none, config := config }) :: m

/-- `getScrapeJob`. -/
def getScrapeJob (m : MemStorage) (id : String) : Option ScrapeJob :=
  match m.find? (fun p => p.1 = id) with
  | some p => some p.2
  | none => none

/-- `updateScrapeJob`: merge blindly into the stored job; no validation. -/
def updateScrapeJob (m : MemStorage) (id : String) (u : JobUpdate) :
    MemStorage × Option ScrapeJob :=
  match getScrapeJob m id with
  | none => (m, none)
  | some job =>
    let updated := applyUpdate job u
    (m.map (fun p => if p.1 = id then (id, updated) else p), some updated)

/-! ## Link discovery (scraper.ts `collectPageImageLinks`, lines 356-405) -/

/-- One discovered item reference. -/
structure ImageLink where
  url : String
  imageId : String
  hash : String
deriving Repr, DecidableEq

/-- A `smartframe-embed` element: its `image-id` and `customer-id`
attributes (`getAttribute` returns `null` when absent). -/
structure EmbedAttrs where
  imageId : Option String := none
  customerId : Option String := none
deriving Repr, DecidableEq

/-- An item container: its `data-image-id`, `data-customer-id` and
`data-hash` attributes. -/
structure ContainerAttrs where
  imageId : Option String := none
  customerId : Option String := none
  hashAttr : Option String := none
deriving Repr, DecidableEq

/-- The three element populations `collectPageImageLinks` inspects. -/
structure PageContent where
  embeds : List EmbedAttrs := []
  anchors : List String := []
  containers : List ContainerAttrs := []
deriving Repr, DecidableEq

/-- `href.match(/\/search\/image\/([^\/]+)\/([^\/\?]+)/)`: the two capture
groups (hash, imageId) of the first match, scanning left to right. -/
def matchImageHref : List Char → Option (String × String)
  | [] => none
  | s@(_ :: rest) =>
    let lit := "/search/image/".toList
    (if startsWithList s lit then
      let r1 := s.drop lit.length
      let cap1 := r1.takeWhile (fun c => c ≠ '/')
      if cap1 = [] then none
      else
        match r1.drop cap1.length with
        | '/' :: r2 =>
          let cap2 := r2.takeWhile (fun c => ¬(c = '/' ∨ c = '?'))
          if cap2 = [] then none
          else some (String.mk cap1, String.mk cap2)
        | _ => none
    else none).orElse (fun _ => matchImageHref rest)

/-- The fixed URL shape built for embed- and container-discovered items. -/
def imagePageUrl (hash imageId : String) : String :=
  "https://smartframe.com/search/image/" ++ hash ++ "/" ++ imageId

/-- `collectPageImageLinks`: the three strategies in order, methods 2 and 3
skipping ids already collected. -/
def collectPageImageLinks (pc : PageContent) : List ImageLink :=
  let l1 := pc.embeds.foldl
    (fun acc e =>
      match e.imageId, e.customerId with
      | some iid, some cid =>
        if iid ≠ "" ∧ cid ≠ "" then
          acc ++ [{ url := imagePageUrl cid iid, imageId := iid, hash := cid }]
        else acc
      | _, _ => acc)
    []
  let l2 := pc.anchors.foldl
    (fun acc href =>
      match matchImageHref href.toList with
      | some (h, iid) =>
        if ¬ acc.any (fun l => l.imageId = iid) then
          acc ++ [{ url := href, imageId := iid, hash := h }]
        else acc
      | none => acc)
    l1
  pc.containers.foldl
    (fun acc cont =>
      let hash := jsOrS cont.customerId cont.hashAttr
      match cont.imageId, hash with
      | some iid, some hs =>
        if iid ≠ "" ∧ hs ≠ "" ∧ ¬ acc.any (fun l => l.imageId = iid) then
          acc ++ [{ url := imagePageUrl hs iid, imageId := iid, hash := hs }]
        else acc
      | _, _ => acc)
    l2

/-- JS `Map.set`: replace in place when the key exists, else append. -/
def mapSet (m : List (String × ImageLink)) (k : String) (v : ImageLink) :
    List (String × ImageLink) :=
  if m.any (fun p => p.1 = k) then
    m.map (fun p => if p.1 = k then (k, v) else p)
  else m ++ [(k, v)]

/-- Insert all of a page sweep's links into the accumulator, keyed by
`imageId` (`discoveredLinks.set(link.imageId, link)`). -/
def insertSweep (m : List (String × ImageLink)) (links : List ImageLink) :
    List (String × ImageLink) :=
  links.foldl (fun m l => mapSet m l.imageId l) m

/-- The whole accumulation of a discovery run: initial page, one sweep per
pagination, final page — an arbitrary list of sweeps into an empty map. -/
def accumulateSweeps (sweeps : List PageContent) : List (String × ImageLink) :=
  sweeps.foldl (fun m pc => insertSweep m (collectPageImageLinks pc)) []

/-- The accumulation invariant: keys are duplicate-free and every entry is
keyed by its link's `imageId`. -/
def GoodAcc (m : List (String × ImageLink)) : Prop :=
  (m.map Prod.fst).Nodup ∧ ∀ p ∈ m, p.1 = p.2.imageId

/-- A normalized optional string: never the (falsy) empty string, so JS
`||`-chains treat it exactly as first-non-null choice. -/
def Norm (o : Option String) : Prop := o ≠ some ""

/-- All seven metadata supplies of a `Fields` value are normalized. -/
def NormFields (r : Fields) : Prop :=
  Norm r.photographer ∧ Norm r.imageSize ∧ Norm r.fileSize ∧ Norm r.country
    ∧ Norm r.city ∧ Norm r.date ∧ Norm r.matchEvent

/-! ## `autoScroll` (scraper.ts lines 407-871)

The browser page is abstracted as a state type `σ` with observation
functions (current URL, number of `img` elements, `document.body.scrollHeight`,
whether a pagination control is found) and transition functions (clicking
the found control, scrolling to the bottom, waiting one patience round).
The loop itself is embedded with explicit fuel counting `while` iterations;
`none` as the final result means the fuel was exhausted before the loop
ended. -/

/-- The abstract listing page. -/
structure PageEnv (σ : Type) where
  url : σ → String
  imgs : σ → Nat
  height : σ → Nat
  findButton : σ → Bool
  click : σ → σ
  scroll : σ → σ
  wait : σ → σ

/-- Observable events of one run: a progress report (rounded percentage,
current count, total) or an `onPageChange` collection callback. -/
inductive ScrollEvent where
  | progress (pct current total : Nat)
  | collect
deriving Repr, DecidableEq

/-- How the loop ended. -/
inductive ScrollDone where
  | capReached
  | loopGuard
  | patienceExhausted
deriving Repr, DecidableEq

/-- The loop variables of `autoScroll`. -/
structure ScrollState (σ : Type) where
  page : σ
  imageCount : Nat
  visited : List (String × Nat)
  justClicked : Bool

/-- The patience mechanism: up to `rounds` waits, stopping early when the
scroll height grows beyond `newHeight`. -/
def patienceLoop (env : PageEnv σ) : Nat → σ → Nat → σ × Bool
  | 0, p, _ => (p, false)
  | rounds + 1, p, newHeight =>
    let p1 := env.wait p
    if newHeight < env.height p1 then (p1, true)
    else patienceLoop env rounds p1 newHeight

/-- The tail of one iteration after the scroll-preceding button attempt:
scroll to the bottom; when the height did not change try a button at the
bottom and then the patience mechanism.  `none` means the patience rounds
were exhausted (the `while` loop breaks); `some (p, jc, collect)` means the
loop continues at page `p` with the just-clicked flag `jc`, having emitted
an `onPageChange` collection callback iff `collect`. -/
def postScrollPhase (env : PageEnv σ) (p : σ) (count : Nat) :
    Option (σ × Bool × Bool) :=
  let previousHeight := env.height p
  let p2 := env.scroll p
  let newHeight := env.height p2
  if newHeight = previousHeight then
    if env.findButton p2 then
      let u2 := env.url p2
      let p3 := env.click p2
      if env.url p3 ≠ u2 then some (p3, true, true)
      else if count < env.imgs p3 then some (p3, true, true)
      else
        match patienceLoop env 5 p3 newHeight with
        | (p4, true) => some (p4, false, false)
        | (_, false) => none
    else
      match patienceLoop env 5 p2 newHeight with
      | (p4, true) => some (p4, false, false)
      | (_, false) => none
  else some (p2, false, false)

/-- One run of the `while` loop of `autoScroll`, with `fuel` bounding the
number of iterations. -/
def autoScrollRun (env : PageEnv σ) (maxImages : Nat) :
    Nat → ScrollState σ → List ScrollEvent × Option ScrollDone
  | 0, _ => ([], none)
  | fuel + 1, st =>
    if maxImages = 0 ∨ st.imageCount < maxImages then
      let u := env.url st.page
      let key := (u, st.imageCount)
      if ¬st.justClicked ∧ st.visited.contains key then ([], some .loopGuard)
      else
        let visited := key :: st.visited
        let count := env.imgs st.page
        let ev := ScrollEvent.progress
          (if maxImages = 0 then 0 else jsRound (count * 100) maxImages)
          count
          (if maxImages = 0 then count else maxImages)
        -- pagination-button attempt before scrolling
        if env.findButton st.page then
          let p1 := env.click st.page
          if env.url p1 ≠ u then
            let (evs, r) := autoScrollRun env maxImages fuel
              { page := p1, imageCount := count, visited := visited, justClicked := true }
            (ev :: .collect :: evs, r)
          else if count < env.imgs p1 then
            let (evs, r) := autoScrollRun env maxImages fuel
              { page := p1, imageCount := count, visited := visited, justClicked := true }
            (ev :: .collect :: evs, r)
          else
            match postScrollPhase env p1 count with
            | none => ([ev], some .patienceExhausted)
            | some (p2, jc, collect) =>
              let (evs, r) := autoScrollRun env maxImages fuel
                { page := p2, imageCount := count, visited := visited, justClicked := jc }
              (if collect then ev :: .collect :: evs else ev :: evs, r)
        else
          match postScrollPhase env st.page count with
          | none => ([ev], some .patienceExhausted)
          | some (p2, jc, collect) =>
            let (evs, r) := autoScrollRun env maxImages fuel
              { page := p2, imageCount := count, visited := visited, justClicked := jc }
            (if collect then ev :: .collect :: evs else ev :: evs, r)
    else ([], some .capReached)

/-- The initial loop variables of an `autoScroll` call. -/
def initScrollState (s0 : σ) : ScrollState σ :=
  { page := s0, imageCount := 0, visited := [], justClicked := false }

/-! ## The orchestrator's storage updates (`scrape`, scraper.ts lines 47-320)

`scrape` touches the job store in a fixed pattern: a `status: "scraping"`
update, then progress/counter updates from the discovery loop and the
per-item extraction loop, then either the completion update or — when
listing navigation exhausts its retries and the error propagates to the
outer `catch` — an error update.  The trace of `updateScrapeJob` payloads
is modelled as a list of `JobUpdate`s. -/

/-- The progress update issued from the `autoScroll` progress callback. -/
def discoveryUpdate : ScrollEvent → Option JobUpdate
  | .progress pct current total =>
    some { progress := some pct, scrapedImages := some current, totalImages := some total }
  | .collect => none

/-- The sequence of `updateScrapeJob` payloads of one `scrape` call.
`items` are the records produced by the per-item loop (one per processed
reference), `errMsg` the message of the navigation error, `completedAt` the
completion timestamp; `fuel` bounds the discovery iterations considered. -/
def scrapeUpdates (env : PageEnv σ) (s0 : σ) (config : ScrapeConfig)
    (oracle : Nat → Bool) (fuel : Nat) (items : List ScrapedImage)
    (errMsg completedAt : String) : List JobUpdate :=
  { status := some .scraping } ::
  match (listingNavigate oracle).1 with
  | none => [{ status := some .error, error := some (some errMsg) }]
  | some _ =>
    let discovery :=
      if config.autoScroll then
        (autoScrollRun env config.maxImages fuel (initScrollState s0)).1
      else []
    let discoveryUpdates := discovery.filterMap discoveryUpdate
    let total := items.length
    let extractionUpdates := (List.range total).map fun i =>
      { progress := some (jsRound ((i + 1) * 100) total)
        scrapedImages := some (i + 1)
        totalImages := some total
        images := some (items.take (i + 1)) }
    discoveryUpdates ++ extractionUpdates ++
      [{ status := some .completed, progress := some 100,
         completedAt := some (some completedAt) }]

/-- The statuses written by a sequence of updates, in order. -/
def statusesOf (l : List JobUpdate) : List JobStatus :=
  l.filterMap (fun u => u.status)

/-! ## Concrete inputs used by the claims -/

/-- The caption of the specification's fallback example. -/
def captionExample : String :=
  "Where: Paris, France / When: 2021-05-01 / Credit: J. Doe"

/-- Raw detail-page data whose only content is the example caption. -/
def c8Raw : RawData := { caption := some captionExample }

/-- An extraction where all earlier tiers leave the fields null and the
detail page carries the example caption. -/
def c8Inputs : ExtractInputs :=
  { imageId := "img1", hash := "h1",
    url := "https://smartframe.com/search/image/h1/img1",
    evalResult := some c8Raw }

/-- Raw detail-page data where the structured list supplies `city` (label
`Location`) and the caption's `Where:` line would supply `country`. -/
def cexRaw : RawData :=
  { caption := some "Where: Paris, France",
    labelValues := [("Location", "Berlin")] }

/-- The extraction inputs of the field-coupling counterexample. -/
def cexInputs : ExtractInputs :=
  { imageId := "img2", hash := "h2",
    url := "https://smartframe.com/search/image/h2/img2",
    evalResult := some cexRaw }

/-- Tier 0 supplies `creditName="A"`, Tier 1 would supply `"B"`. -/
def abInputs : ExtractInputs :=
  { imageId := "img3", hash := "h3",
    url := "https://smartframe.com/search/image/h3/img3",
    cached := some { photographer := some "A" },
    evalResult := some { labelValues := [("Credit", "B")] } }

/-- A navigation oracle that fails the first two attempts and would succeed
on the third. -/
def thirdTimeOracle : Nat → Bool := fun a => 3 ≤ a

/-- A listing page that toggles between two URLs on every pagination click
while its item count and height stay fixed. -/
def togglePage : PageEnv Bool :=
  { url := fun b => if b then "A" else "B"
    imgs := fun _ => 5
    height := fun _ => 100
    findButton := fun _ => true
    click := fun b => !b
    scroll := id
    wait := id }

/-- A static listing page showing 25 images: nothing changes on scroll,
click or wait. -/
def staticPage : PageEnv Unit :=
  { url := fun _ => "https://smartframe.com/search?searchQuery=x"
    imgs := fun _ => 25
    height := fun _ => 400
    findButton := fun _ => false
    click := id
    scroll := id
    wait := id }

/-- A default configuration (shared/schema.ts defaults). -/
def defaultConfig : ScrapeConfig :=
  { url := "https://smartframe.com/search?searchQuery=x" }

/-- A concrete extraction whose detail navigation always fails. -/
def failNavInputs : ExtractInputs :=
  { imageId := "w6", hash := "h6", url := "u6", navOracle := fun _ => false }

/-! ## Lemmas about trimming and the sanitizer -/

theorem dropWhile_dropWhile (p : Char → Bool) (l : List Char) :
    (l.dropWhile p).dropWhile p = l.dropWhile p := by
  induction l with
  | nil => rfl
  | cons c t ih =>
    by_cases h : p c
    · rw [List.dropWhile_cons_of_pos h, ih]
    · simp [List.dropWhile_cons_of_neg h]

theorem head?_dropWhile_false (p : Char → Bool) (l : List Char) {c : Char}
    (h : (l.dropWhile p).head? = some c) : p c = false := by
  have := List.head?_dropWhile_not p l
  rw [h] at this
  exact this

theorem mem_jsTrim {c : Char} {l : List Char} (h : c ∈ jsTrim l) : c ∈ l := by
  unfold jsTrim at h
  rw [List.mem_reverse] at h
  have h2 := (List.dropWhile_suffix isJsSpace).subset h
  rw [List.mem_reverse] at h2
  exact (List.dropWhile_suffix isJsSpace).subset h2

theorem head?_jsTrim_false (l : List Char) {c : Char}
    (h : (jsTrim l).head? = some c) : isJsSpace c = false := by
  unfold jsTrim at h
  rw [List.head?_reverse] at h
  -- `h : ((l.dropWhile ws).reverse.dropWhile ws).getLast? = some c`
  rcases List.dropWhile_suffix (l := (l.dropWhile isJsSpace).reverse) isJsSpace with ⟨t, ht⟩
  have hne : (l.dropWhile isJsSpace).reverse.dropWhile isJsSpace ≠ [] := by
    intro hnil
    rw [hnil] at h
    simp at h
  have hlast : ((l.dropWhile isJsSpace).reverse).getLast? = some c := by
    rw [← ht, List.getLast?_append_of_ne_nil _ hne, h]
  rw [List.getLast?_reverse] at hlast
  exact head?_dropWhile_false isJsSpace l hlast

theorem getLast?_jsTrim_false (l : List Char) {c : Char}
    (h : (jsTrim l).getLast? = some c) : isJsSpace c = false := by
  unfold jsTrim at h
  rw [List.getLast?_reverse] at h
  exact head?_dropWhile_false isJsSpace _ h

theorem jsTrim_eq_self (l : List Char)
    (h1 : ∀ c, l.head? = some c → isJsSpace c = false)
    (h2 : ∀ c, l.getLast? = some c → isJsSpace c = false) :
    jsTrim l = l := by
  have ha : l.dropWhile isJsSpace = l := by
    cases l with
    | nil => rfl
    | cons c t =>
      have := h1 c rfl
      exact List.dropWhile_cons_of_neg (by simp [this])
  have hb : l.reverse.dropWhile isJsSpace = l.reverse := by
    cases hr : l.reverse with
    | nil => simp
    | cons c t =>
      have hc : l.getLast? = some c := by
        rw [← List.head?_reverse, hr]
        rfl
      have := h2 c hc
      exact List.dropWhile_cons_of_neg (by simp [this])
  unfold jsTrim
  rw [ha, hb, List.reverse_reverse]

theorem jsTrim_jsTrim (l : List Char) : jsTrim (jsTrim l) = jsTrim l :=
  jsTrim_eq_self (jsTrim l)
    (fun _ h => head?_jsTrim_false l h)
    (fun _ h => getLast?_jsTrim_false l h)

/-- Inversion of a successful `cleanList` call. -/
theorem cleanList_eq_some {text l : List Char} (h : cleanList text = some l) :
    l = stripPipeline text ∧
      l.length ≤ 200 ∧ lineCount l ≤ 3 ∧ l ≠ [] ∧
      rejectText text = false ∧ text ≠ [] := by
  unfold cleanList at h
  split_ifs at h with h1 h2 h3 h4 h5
  injection h with h
  subst h
  exact ⟨rfl, by omega, by omega, h5, by simpa using h2, h1⟩

theorem removeTagsF_of_no_lt :
    ∀ (fuel : Nat) (l : List Char), (∀ c ∈ l, c ≠ '<') → removeTagsF fuel l = l := by
  intro fuel
  induction fuel with
  | zero => intro l _; cases l <;> rfl
  | succ n ih =>
    intro l h
    cases l with
    | nil => rfl
    | cons c t =>
      have hc : c ≠ '<' := h c (by simp)
      rw [removeTagsF]
      simp only [if_neg hc]
      rw [ih t (fun x hx => h x (by simp [hx]))]

theorem removeTags_of_no_lt {l : List Char} (h : ∀ c ∈ l, c ≠ '<') :
    removeTags l = l :=
  removeTagsF_of_no_lt l.length l h

theorem stripLead_of_no_lt {l : List Char} (h : ∀ c ∈ l, c ≠ '<') :
    stripLead l = l := by
  cases l with
  | nil => rfl
  | cons c t =>
    have hc : c ≠ '<' := h c (by simp)
    simp [stripLead, hc]

theorem stripTrail_of_no_gt {l : List Char} (h : ∀ c ∈ l, c ≠ '>') :
    stripTrail l = l := by
  unfold stripTrail
  cases hr : l.reverse with
  | nil => rfl
  | cons c t =>
    have hc : c ≠ '>' := by
      apply h
      rw [← List.mem_reverse, hr]
      simp
    simp [hc]

/-- An accepted value contains no angle bracket. -/
theorem cleanList_no_brackets {text l : List Char} (h : cleanList text = some l) :
    ∀ c ∈ l, ¬(c = '<' ∨ c = '>') := by
  obtain ⟨hl, -, -, -, -, -⟩ := cleanList_eq_some h
  intro c hc
  rw [hl] at hc
  unfold stripPipeline at hc
  have hin : c ∈ (stripTrail (stripLead (removeTags text))).filter
      (fun ch => ¬(ch = '<' ∨ ch = '>')) := mem_jsTrim hc
  have := List.of_mem_filter hin
  simpa using this

/-- Re-running `cleanList` on an accepted value whose text triggers no
rejection phrase returns it unchanged. -/
theorem cleanList_idem {text l : List Char} (h : cleanList text = some l)
    (hrej : rejectText l = false) : cleanList l = some l := by
  obtain ⟨hl, hlen, hlines, hne, -, -⟩ := cleanList_eq_some h
  have hmem : ∀ c ∈ l, ¬(c = '<' ∨ c = '>') := cleanList_no_brackets h
  have hnolt : ∀ c ∈ l, c ≠ '<' := fun c hc => (hmem c hc).imp (fun h => Or.inl h)
  have hnogt : ∀ c ∈ l, c ≠ '>' := fun c hc => (hmem c hc).imp (fun h => Or.inr h)
  have htrim : jsTrim l = l := by
    rw [hl]
    unfold stripPipeline
    rw [jsTrim_jsTrim]
  have hpipe : stripPipeline l = l := by
    unfold stripPipeline
    rw [removeTags_of_no_lt hnolt, stripLead_of_no_lt hnolt, stripTrail_of_no_gt hnogt]
    rw [List.filter_eq_self.mpr (by intro a ha; simpa using hmem a ha)]
    exact htrim
  unfold cleanList
  rw [if_neg hne, hrej, hpipe]
  simp only [Bool.false_eq_true, if_false]
  rw [if_neg (by omega), if_neg (by omega), if_neg hne]

/-- Unfolding lemma for `cleanTextHelper` on a present string. -/
theorem cleanTextHelper_some_eq (s : String) :
    cleanTextHelper (some s) =
      match cleanList s.toList with
      | none => none
      | some l => some (String.mk l) := rfl

/-! ## Claim C2: the Sanitizer -/

/-- C2: `cleanTextHelper` returns null whenever the input contains, case
insensitively, one of the keywords script/iframe/onclick/onerror/onload or
a blocklisted UI phrase; it rejects the script example, "Copy Link", a
250-character and a 4-line input, accepts "Jane Doe", and every accepted
value is stripped of angle brackets, at most 200 characters, and at most 3
lines; failures are the value `none`, not an exception. -/
theorem c2_sanitizer_spec :
    (∀ (s k : String), k ∈ specRejectPhrases →
        includesSub (lowerList s.toList) k.toList = true →
        cleanTextHelper (some s) = none)
    ∧ cleanTextHelper (some "<script>alert(1)</script>") = none
    ∧ cleanTextHelper (some "Copy Link") = none
    ∧ cleanTextHelper (some "Jane Doe") = some "Jane Doe"
    ∧ cleanTextHelper (some (String.mk (List.replicate 250 'a'))) = none
    ∧ cleanTextHelper (some "a\nb\nc\nd") = none
    ∧ (∀ (s v : String), cleanTextHelper (some s) = some v →
        v.toList.length ≤ 200 ∧ lineCount v.toList ≤ 3 ∧ v ≠ "" ∧
        ∀ c ∈ v.toList, c ≠ '<' ∧ c ≠ '>') := by
  refine ⟨?_, by decide, by decide, by decide, by decide, by decide, ?_⟩
  · intro s k hk hinc
    have hrej : rejectText s.toList = true := by
      have hmem : k ∈ suspiciousKeywords ∨ k ∈ uiBlocklist := by
        fin_cases hk <;> simp [suspiciousKeywords, uiBlocklist]
      simp only [rejectText, Bool.or_eq_true, List.any_eq_true]
      rcases hmem with h | h
      · exact Or.inl ⟨k, h, hinc⟩
      · exact Or.inr ⟨k, h, hinc⟩
    have hclean : cleanList s.toList = none := by
      unfold cleanList
      by_cases h1 : s.toList = []
      · rw [if_pos h1]
      · rw [if_neg h1, hrej]
        simp
    rw [cleanTextHelper_some_eq, hclean]
  · intro s v hv
    rw [cleanTextHelper_some_eq] at hv
    cases hcl : cleanList s.toList with
    | none => rw [hcl] at hv; exact absurd hv (by simp)
    | some l =>
      rw [hcl] at hv
      injection hv with hv
      obtain ⟨-, hlen, hlines, hne, -, -⟩ := cleanList_eq_some hcl
      have hdata : v.toList = l := by rw [← hv]; rfl
      refine ⟨by rw [hdata]; exact hlen, by rw [hdata]; exact hlines, ?_, ?_⟩
      · intro he
        apply hne
        have := congrArg String.toList he
        rw [hdata] at this
        simpa using this
      · intro c hc
        rw [hdata] at hc
        have := cleanList_no_brackets hcl c hc
        exact ⟨fun h => this (Or.inl h), fun h => this (Or.inr h)⟩

/-- Witness for C2: a value containing "onclick" is rejected. -/
theorem c2_sanitizer_spec_witness :
    cleanTextHelper (some "xOnClicky") = none :=
  c2_sanitizer_spec.1 "xOnClicky" "onclick" (by decide) (by decide)

/-! ## Claim C10: sanitizer idempotence -/

/-- C10 counterexample: `"s<b>cript"` is accepted and cleaned to
`"script"`, but re-sanitizing `"script"` rejects it — stripping tags can
splice a blocked keyword together, so the sanitizer is not idempotent on
accepted values. -/
theorem c10_idempotence_counterexample :
    cleanTextHelper (some "s<b>cript") = some "script" ∧
      cleanTextHelper (some "script") = none := by
  exact ⟨by decide, by decide⟩

/-- C10 amended: the sanitizer is idempotent on every accepted value whose
cleaned text contains no rejection phrase; only accepted values into which
tag-stripping has spliced a blocked keyword are re-rejected. -/
theorem c10_idempotent_on_unblocked_values :
    ∀ (s v : String), cleanTextHelper (some s) = some v →
      rejectText v.toList = false →
      cleanTextHelper (some v) = some v := by
  intro s v hv hrej
  rw [cleanTextHelper_some_eq] at hv
  cases hcl : cleanList s.toList with
  | none => rw [hcl] at hv; exact absurd hv (by simp)
  | some l =>
    rw [hcl] at hv
    injection hv with hv
    have hdata : v.toList = l := by rw [← hv]; rfl
    have hidem : cleanList l = some l := cleanList_idem hcl (hdata ▸ hrej)
    rw [cleanTextHelper_some_eq, hdata, hidem, ← hv]

/-- Witness for C10 amended: re-sanitizing the accepted value of
`"  Jane  "` keeps it unchanged. -/
theorem c10_idempotent_on_unblocked_values_witness :
    cleanTextHelper (some "Jane") = some "Jane" :=
  c10_idempotent_on_unblocked_values "  Jane  " "Jane" (by decide) (by decide)

/-! ## Claim C8: the caption regex fallback example -/

/-- C8: with no cached network data and no structured list entries, the
caption `"Where: Paris, France / When: 2021-05-01 / Credit: J. Doe"`
yields city "Paris", country "France", date "2021-05-01" and photographer
"J. Doe", each captured group passing through the sanitizer. -/
theorem c8_caption_fallback_example :
    (extractImageData c8Inputs).city = some "Paris" ∧
      (extractImageData c8Inputs).country = some "France" ∧
      (extractImageData c8Inputs).date = some "2021-05-01" ∧
      (extractImageData c8Inputs).photographer = some "J. Doe" := by
  exact ⟨by decide, by decide, by decide, by decide⟩

/-! ## Claim C7: navigation retries -/

/-- C7 counterexample: with navigation failing on the first two attempts
and succeeding on the third, the detail profile gives up after 2 attempts
with a single fixed 2000 ms delay, while the listing profile (and the
claimed 3-attempt profile) succeeds on attempt 3 after backoffs 2000 ms and
4000 ms — so the "3 attempts for both profiles" claim is false. -/
theorem c7_detail_retry_counterexample :
    detailNavigate thirdTimeOracle = (none, [2000]) ∧
      listingNavigate thirdTimeOracle = (some 3, [2000, 4000]) ∧
      specDetailNavigate thirdTimeOracle = (some 3, [2000, 4000]) := by
  exact ⟨by decide, by decide, by decide⟩

/-- C7 amended: listing navigation retries up to 3 attempts with backoff
2000 ms × attempt and waits for network idle with a 60 s timeout, surfacing
failure only after the 3rd attempt; detail navigation retries up to 2
attempts with a fixed 2000 ms delay and waits only for the initial DOM
parse with a 60 s timeout, returning the partial record on exhaustion. -/
theorem c7_navigation_retry (oracle : Nat → Bool) :
    listingNavigate oracle =
      (if oracle 1 then (some 1, [])
       else if oracle 2 then (some 2, [2000 * 1])
       else if oracle 3 then (some 3, [2000 * 1, 2000 * 2])
       else (none, [2000 * 1, 2000 * 2])) ∧
    detailNavigate oracle =
      (if oracle 1 then (some 1, [])
       else if oracle 2 then (some 2, [2000])
       else (none, [2000])) ∧
    listingGotoProfile = ("networkidle2", 60000) ∧
    detailGotoProfile = ("domcontentloaded", 60000) := by
  refine ⟨?_, ?_, rfl, rfl⟩ <;>
    by_cases h1 : oracle 1 <;> by_cases h2 : oracle 2 <;> by_cases h3 : oracle 3 <;>
      simp [listingNavigate, detailNavigate, navigateFrom, h1, h2, h3]

/-- Witness for C7 amended: instantiated at the always-failing oracle. -/
theorem c7_navigation_retry_witness :
    listingNavigate (fun _ => false) = (none, [2000 * 1, 2000 * 2]) ∧
      detailNavigate (fun _ => false) = (none, [2000]) := by
  have h := c7_navigation_retry (fun _ => false)
  exact ⟨by rw [h.1]; decide, by rw [h.2.1]; decide⟩

/-! ## Claim C6: extraction never loses identity -/

theorem baseImage_identity (inp : ExtractInputs) :
    (baseImage inp).imageId = inp.imageId ∧
      (baseImage inp).smartframeId = inp.imageId ∧
      (baseImage inp).url = inp.url ∧
      (baseImage inp).copyLink = inp.url := by
  unfold baseImage
  cases inp.cached <;> exact ⟨rfl, rfl, rfl, rfl⟩

/-- `extractImageData` either returns the pre-detail record or the
field-by-field merge with `parseMetadata`. -/
theorem extractImageData_cases (inp : ExtractInputs) :
    extractImageData inp = baseImage inp ∨
      ∃ rd, extractImageData inp =
        { baseImage inp with
          photographer := jsOrS (baseImage inp).photographer (parseMetadata rd).photographer
          imageSize := jsOrS (baseImage inp).imageSize (parseMetadata rd).imageSize
          fileSize := jsOrS (baseImage inp).fileSize (parseMetadata rd).fileSize
          country := jsOrS (baseImage inp).country (parseMetadata rd).country
          city := jsOrS (baseImage inp).city (parseMetadata rd).city
          date := jsOrS (baseImage inp).date (parseMetadata rd).date
          matchEvent := jsOrS (baseImage inp).matchEvent (parseMetadata rd).matchEvent } := by
  unfold extractImageData
  by_cases hd : inp.extractDetails
  · rw [if_pos hd]
    cases (detailNavigate inp.navOracle).1 with
    | none => exact Or.inl rfl
    | some a =>
      cases inp.evalResult with
      | none => exact Or.inl rfl
      | some rd => exact Or.inr ⟨rd, rfl⟩
  · rw [if_neg hd]
    exact Or.inl rfl

/-- C6: `extractImageData` is a total function of its inputs (failures of
detail navigation or of the in-page evaluation are inputs, not exceptions);
every record it returns carries the input reference's id and url, and on
irrecoverable detail-navigation failure it returns exactly the partial
record built before the detail block. -/
theorem c6_extraction_partial_records :
    ∀ inp : ExtractInputs,
      (extractImageData inp).imageId = inp.imageId ∧
      (extractImageData inp).smartframeId = inp.imageId ∧
      (extractImageData inp).url = inp.url ∧
      (extractImageData inp).copyLink = inp.url ∧
      ((detailNavigate inp.navOracle).1 = none →
        extractImageData inp = baseImage inp) := by
  intro inp
  obtain ⟨hb1, hb2, hb3, hb4⟩ := baseImage_identity inp
  have himp : (detailNavigate inp.navOracle).1 = none →
      extractImageData inp = baseImage inp := by
    intro h
    unfold extractImageData
    by_cases hd : inp.extractDetails
    · rw [if_pos hd, h]
    · rw [if_neg hd]
  refine ⟨?_, ?_, ?_, ?_, himp⟩
  all_goals rcases extractImageData_cases inp with heq | ⟨rd, heq⟩ <;> rw [heq]
  all_goals first | exact hb1 | exact hb2 | exact hb3 | exact hb4

/-- Witness for C6: with detail navigation failing on both attempts the
result is the tier-0-only record carrying the reference identity. -/
theorem c6_extraction_partial_records_witness :
    (extractImageData failNavInputs).imageId = "w6" ∧
      extractImageData failNavInputs = baseImage failNavInputs := by
  have h := c6_extraction_partial_records failNavInputs
  exact ⟨h.1, h.2.2.2.2 (by decide)⟩

/-! ## Claim C5: no duplicate ids in the discovered set -/

theorem goodAcc_mapSet {m : List (String × ImageLink)} (l : ImageLink)
    (h : GoodAcc m) : GoodAcc (mapSet m l.imageId l) := by
  obtain ⟨hnd, hkey⟩ := h
  unfold mapSet
  by_cases hany : m.any (fun p => p.1 = l.imageId)
  · rw [if_pos hany]
    constructor
    · have : (m.map fun p => if p.1 = l.imageId then (l.imageId, l) else p).map Prod.fst
          = m.map Prod.fst := by
        rw [List.map_map]
        apply List.map_congr_left
        intro p _
        by_cases hp : p.1 = l.imageId
        · simp [hp]
        · simp [hp]
      rw [this]
      exact hnd
    · intro p hp
      rw [List.mem_map] at hp
      obtain ⟨q, hq, hfq⟩ := hp
      by_cases hqk : q.1 = l.imageId
      · rw [if_pos hqk] at hfq
        rw [← hfq]
      · rw [if_neg hqk] at hfq
        rw [← hfq]
        exact hkey q hq
  · rw [if_neg hany]
    constructor
    · rw [List.map_append]
      simp only [List.map_cons, List.map_nil]
      rw [List.nodup_append]
      refine ⟨hnd, List.nodup_singleton _, ?_⟩
      intro k hk
      simp only [List.mem_singleton]
      intro hkeq
      apply hany
      rw [List.any_eq_true]
      rw [List.mem_map] at hk
      obtain ⟨p, hp, hpk⟩ := hk
      exact ⟨p, hp, by simp [hpk, hkeq]⟩
    · intro p hp
      rw [List.mem_append] at hp
      rcases hp with hp | hp
      · exact hkey p hp
      · simp only [List.mem_singleton] at hp
        rw [hp]

theorem goodAcc_insertSweep {m : List (String × ImageLink)}
    (links : List ImageLink) (h : GoodAcc m) : GoodAcc (insertSweep m links) := by
  induction links generalizing m with
  | nil => exact h
  | cons l t ih => exact ih (goodAcc_mapSet l h)

/-- C5: the reference map accumulated over any sequence of page sweeps —
whatever mixture of the three lookup strategies found each item — contains
no two entries with the same `imageId`. -/
theorem c5_discovery_nodup :
    ∀ sweeps : List PageContent,
      ((accumulateSweeps sweeps).map (fun p => p.2.imageId)).Nodup := by
  intro sweeps
  have hgood : GoodAcc (accumulateSweeps sweeps) := by
    unfold accumulateSweeps
    have : ∀ (ss : List PageContent) (m : List (String × ImageLink)), GoodAcc m →
        GoodAcc (ss.foldl (fun m pc => insertSweep m (collectPageImageLinks pc)) m) := by
      intro ss
      induction ss with
      | nil => intro m hm; exact hm
      | cons pc t ih =>
        intro m hm
        exact ih _ (goodAcc_insertSweep (collectPageImageLinks pc) hm)
    exact this sweeps [] ⟨List.nodup_nil, by intro p hp; cases hp⟩
  have hmap : (accumulateSweeps sweeps).map (fun p => p.2.imageId)
      = (accumulateSweeps sweeps).map Prod.fst := by
    apply List.map_congr_left
    intro p hp
    exact (hgood.2 p hp).symm
  rw [hmap]
  exact hgood.1

/-! ## Claim C4: discovery-loop termination -/

theorem togglePage_run_none :
    ∀ (fuel : Nat) (b : Bool) (v : List (String × Nat)),
      (autoScrollRun togglePage 0 fuel
        { page := b, imageCount := 5, visited := v, justClicked := true }).2 = none := by
  intro fuel
  induction fuel with
  | zero => intro b v; rfl
  | succ n ih =>
    intro b v
    cases b <;> (simp [autoScrollRun, togglePage]; exact ih _ _)

/-- C4 counterexample: on a listing page that flips between two URLs on
every pagination click (item count and height fixed), every click counts
as successful pagination, the loop guard is skipped on every iteration,
and the discovery loop never terminates — so it is not bounded for every
listing page. -/
theorem c4_nontermination_counterexample :
    ¬ ∃ fuel : Nat,
      (autoScrollRun togglePage 0 fuel (initScrollState false)).2.isSome := by
  rintro ⟨fuel, hsome⟩
  cases fuel with
  | zero => simp [autoScrollRun] at hsome
  | succ n =>
    have hnone : (autoScrollRun togglePage 0 (n + 1) (initScrollState false)).2
        = none := by
      simp [autoScrollRun, initScrollState, togglePage]
      exact togglePage_run_none n _ _
    rw [hnone] at hsome
    simp at hsome

theorem patience_static (env : PageEnv σ) (h : Nat)
    (hH : ∀ s, env.height s = h) :
    ∀ (rounds : Nat) (p : σ), ∃ q, patienceLoop env rounds p h = (q, false) := by
  intro rounds
  induction rounds with
  | zero => intro p; exact ⟨p, rfl⟩
  | succ r ih =>
    intro p
    obtain ⟨q, hq⟩ := ih (env.wait p)
    refine ⟨q, ?_⟩
    unfold patienceLoop
    simp only [hH]
    simp [hq]

theorem postScroll_static (env : PageEnv σ) (u : String) (n h : Nat)
    (hU : ∀ s, env.url s = u) (hI : ∀ s, env.imgs s = n)
    (hH : ∀ s, env.height s = h) (p : σ) :
    postScrollPhase env p n = none := by
  unfold postScrollPhase
  by_cases hb : env.findButton (env.scroll p)
  · obtain ⟨q, hq⟩ := patience_static env h hH 5 (env.click (env.scroll p))
    simp [hH, hU, hI, hb, hq]
  · obtain ⟨q, hq⟩ := patience_static env h hH 5 (env.scroll p)
    simp [hH, hU, hI, hb, hq]

/-- C4 amended: (1) on a listing page whose URL, visible-item count and
document extent never change under clicking, scrolling or waiting, the
discovery loop ends during its very first iteration, with the 5 patience
rounds exhausted and no growth — a normal completion, not an error; (2)
from any loop state not immediately preceded by a successful pagination
click, a revisited (URL, item-count) page-state key ends the loop at once.
The claim's universal bound over all listing pages fails (see the toggling
counterexample): a page that keeps changing its URL on every click keeps
the loop running. -/
theorem c4_discovery_termination :
    (∀ {σ : Type} (env : PageEnv σ) (u : String) (n h : Nat),
      (∀ s, env.url s = u) → (∀ s, env.imgs s = n) → (∀ s, env.height s = h) →
      ∀ (maxImages fuel : Nat) (s0 : σ),
        (autoScrollRun env maxImages (fuel + 1) (initScrollState s0)).2
          = some .patienceExhausted)
    ∧ (∀ {σ : Type} (env : PageEnv σ) (maxImages fuel : Nat) (st : ScrollState σ),
        st.justClicked = false →
        st.visited.contains (env.url st.page, st.imageCount) = true →
        (maxImages = 0 ∨ st.imageCount < maxImages) →
        (autoScrollRun env maxImages (fuel + 1) st).2 = some .loopGuard) := by
  constructor
  · intro σ env u n h hU hI hH maxImages fuel s0
    have hpost : ∀ p : σ, postScrollPhase env p n = none :=
      postScroll_static env u n h hU hI hH
    rcases Nat.eq_zero_or_pos maxImages with h0 | h0
    · subst h0
      by_cases hb : env.findButton s0 <;>
        simp [autoScrollRun, initScrollState, hU, hI, hH, hb, hpost]
    · by_cases hb : env.findButton s0 <;>
        simp [autoScrollRun, initScrollState, hU, hI, hH, hb, hpost, h0, Nat.pos_iff_ne_zero]
  · intro σ env maxImages fuel st hjc hvis hcond
    rw [autoScrollRun]
    rw [if_pos hcond, if_pos ⟨by simp [hjc], hvis⟩]

/-- Witness for C4 amended: the static 25-image listing page ends via
patience exhaustion in its first iteration, and a revisited state key ends
the loop from a resumed state. -/
theorem c4_discovery_termination_witness :
    (autoScrollRun staticPage 0 1 (initScrollState ())).2
        = some .patienceExhausted ∧
      (autoScrollRun staticPage 0 1
        { page := (), imageCount := 25,
          visited := [("https://smartframe.com/search?searchQuery=x", 25)],
          justClicked := false }).2 = some .loopGuard := by
  constructor
  · exact c4_discovery_termination.1 staticPage
      "https://smartframe.com/search?searchQuery=x" 25 400
      (fun _ => rfl) (fun _ => rfl) (fun _ => rfl) 0 0 ()
  · exact c4_discovery_termination.2 staticPage 0 0 _ rfl (by decide) (Or.inl rfl)

/-! ## Claim C9: progress bounds during scraping -/

/-- C9 (code bug): with `maxImages = 10` and a listing page already showing
25 images, the first discovery iteration writes progress
`Math.round(25 / 10 * 100) = 250` to the job — above the 0..100 range that
`scrapeJobSchema` declares and the claim states; the same unclamped
formula also lets progress decrease when the item count drops across a
pagination. -/
theorem c9_progress_overflow :
    autoScrollRun staticPage 10 1 (initScrollState ()) =
      ([ScrollEvent.progress 250 25 10], some .patienceExhausted) ∧
      100 < 250 := by
  exact ⟨by decide, by decide⟩

/-! ## Claim C3: job-status transitions -/

/-- C3 counterexample: the job store validates nothing — a job moved to the
terminal status `completed` is moved back to `pending` by a further update,
a transition the claim says is rejected or ignored. -/
theorem c3_store_transition_counterexample :
    ((getScrapeJob
      (updateScrapeJob
        (createScrapeJob [] "j1" "https://smartframe.com/x" "t0" defaultConfig)
        "j1" { status := some .completed }).1
      "j1").map fun j => j.status) = some .completed ∧
    ((getScrapeJob
      (updateScrapeJob
        (updateScrapeJob
          (createScrapeJob [] "j1" "https://smartframe.com/x" "t0" defaultConfig)
          "j1" { status := some .completed }).1
        "j1" { status := some .pending }).1
      "j1").map fun j => j.status) = some .pending := by
  exact ⟨by decide, by decide⟩

theorem statusesOf_append (a b : List JobUpdate) :
    statusesOf (a ++ b) = statusesOf a ++ statusesOf b := by
  unfold statusesOf
  rw [List.filterMap_append]

theorem statusesOf_discovery (evs : List ScrollEvent) :
    statusesOf (evs.filterMap discoveryUpdate) = [] := by
  induction evs with
  | nil => rfl
  | cons e t ih =>
    cases e with
    | progress pct current total =>
      simp only [List.filterMap_cons, discoveryUpdate]
      rw [statusesOf, List.filterMap_cons]
      simpa [statusesOf] using ih
    | collect =>
      simp only [List.filterMap_cons, discoveryUpdate]
      exact ih

theorem statusesOf_range_map (n : Nat) (f : Nat → JobUpdate)
    (hf : ∀ i, (f i).status = none) :
    statusesOf ((List.range n).map f) = [] := by
  unfold statusesOf
  rw [List.filterMap_map]
  rw [show ((fun u : JobUpdate => u.status) ∘ f) = fun _ => none from
    funext fun i => hf i]
  simp

/-- C3 amended: (1) `updateScrapeJob` applies any partial update to an
existing job unconditionally — nothing is rejected or ignored at the store
level, so terminal states are only as immutable as the callers are
disciplined; (2) the scraper itself only ever writes the statuses
`scraping` followed by exactly one of `completed` (success) or `error`
(listing navigation failed), so under the scraper's own usage the status
follows pending → scraping → {completed | error}. -/
theorem c3_store_and_orchestrator_transitions :
    (∀ (m : MemStorage) (id : String) (u : JobUpdate) (job : ScrapeJob),
      getScrapeJob m id = some job →
      (updateScrapeJob m id u).2 = some (applyUpdate job u) ∧
        getScrapeJob (updateScrapeJob m id u).1 id = some (applyUpdate job u))
    ∧ (∀ {σ : Type} (env : PageEnv σ) (s0 : σ) (config : ScrapeConfig)
        (oracle : Nat → Bool) (fuel : Nat) (items : List ScrapedImage)
        (errMsg completedAt : String),
        statusesOf (scrapeUpdates env s0 config oracle fuel items errMsg completedAt)
          = if (listingNavigate oracle).1.isSome
            then [.scraping, .completed]
            else [.scraping, .error]) := by
  constructor
  · intro m id u job hget
    have hfind : ∃ p, m.find? (fun q => q.1 = id) = some p ∧ p.2 = job ∧ p.1 = id := by
      unfold getScrapeJob at hget
      cases hf : m.find? (fun q => q.1 = id) with
      | none => rw [hf] at hget; cases hget
      | some p =>
        rw [hf] at hget
        injection hget with hget
        exact ⟨p, rfl, hget, by simpa using List.find?_some hf⟩
    obtain ⟨p, hf, hp2, hp1⟩ := hfind
    have hget' : getScrapeJob m id = some job := hget
    constructor
    · unfold updateScrapeJob
      rw [hget']
    · unfold updateScrapeJob
      rw [hget']
      unfold getScrapeJob
      rw [List.find?_map]
      have hcomp : ((fun q : String × ScrapeJob => decide (q.1 = id)) ∘
          (fun r : String × ScrapeJob =>
            if r.1 = id then (id, applyUpdate job u) else r))
          = fun q : String × ScrapeJob => decide (q.1 = id) := by
        funext q
        by_cases hq : q.1 = id <;> simp [hq]
      rw [hcomp, hf]
      simp [hp1, hp2]
  · intro σ env s0 config oracle fuel items errMsg completedAt
    unfold scrapeUpdates
    cases hn : (listingNavigate oracle).1 with
    | none => simp [statusesOf]
    | some a =>
      have hx : statusesOf ((List.range items.length).map fun i =>
          ({ progress := some (jsRound ((i + 1) * 100) items.length)
             scrapedImages := some (i + 1)
             totalImages := some items.length
             images := some (items.take (i + 1)) } : JobUpdate)) = [] :=
        statusesOf_range_map _ _ (fun _ => rfl)
      have hd : statusesOf (List.filterMap discoveryUpdate
          (if config.autoScroll = true
           then (autoScrollRun env config.maxImages fuel (initScrollState s0)).1
           else [])) = [] := statusesOf_discovery _
      unfold statusesOf at hd hx
      simp only [Option.isSome_some, if_true]
      rw [statusesOf, List.filterMap_cons]
      simp only []
      rw [List.filterMap_append, List.filterMap_append, hd, hx]
      rfl

/-- Witness for C3 amended: a concrete pending job is moved to `scraping`
by an unconditional update, and a concrete successful run writes exactly
the statuses scraping, completed. -/
theorem c3_store_and_orchestrator_transitions_witness :
    getScrapeJob
        (updateScrapeJob
          (createScrapeJob [] "j1" "https://smartframe.com/x" "t0" defaultConfig)
          "j1" { status := some .scraping }).1 "j1"
      = some (applyUpdate
          { id := "j1", url := "https://smartframe.com/x", status := .pending,
            progress := 0, totalImages := 0, scrapedImages := 0, images := [],
            error := none, startedAt := "t0", completedAt := none,
            config := defaultConfig }
          { status := some .scraping }) ∧
    statusesOf (scrapeUpdates staticPage () defaultConfig (fun _ => true) 1 [] "e" "t1")
      = [.scraping, .completed] := by
  constructor
  · exact (c3_store_and_orchestrator_transitions.1
      (createScrapeJob [] "j1" "https://smartframe.com/x" "t0" defaultConfig)
      "j1" { status := some .scraping }
      { id := "j1", url := "https://smartframe.com/x", status := .pending,
        progress := 0, totalImages := 0, scrapedImages := 0, images := [],
        error := none, startedAt := "t0", completedAt := none,
        config := defaultConfig }
      (by decide)).2
  · rw [c3_store_and_orchestrator_transitions.2
      staticPage () defaultConfig (fun _ => true) 1 [] "e" "t1"]
    decide

/-! ## Claim C1: first non-null tier wins per field -/

theorem jsOrS_assoc (a b c : Option String) :
    jsOrS (jsOrS a b) c = jsOrS a (jsOrS b c) := by
  cases a with
  | none => rfl
  | some s => by_cases hs : s = "" <;> simp [jsOrS, hs]

theorem norm_chain {b : Option String} (hb : Norm b) (a : Option String) :
    Norm (jsOrS a b) := by
  cases a with
  | none => exact hb
  | some s =>
    by_cases hs : s = ""
    · simpa [jsOrS, hs] using hb
    · simp [jsOrS, hs, Norm]

theorem norm_none : Norm none := by simp [Norm]

theorem jsOrS_norm_none {a : Option String} (h : Norm a) : jsOrS a none = a := by
  cases a with
  | none => rfl
  | some s =>
    have hs : s ≠ "" := by simpa [Norm] using h
    simp [jsOrS, hs]

theorem norm_clean (t : Option String) : Norm (cleanTextHelper t) := by
  cases t with
  | none => exact norm_none
  | some s =>
    rw [cleanTextHelper_some_eq]
    cases hcl : cleanList s.toList with
    | none => exact norm_none
    | some l =>
      obtain ⟨-, -, -, hne, -, -⟩ := cleanList_eq_some hcl
      simp only [Norm, ne_eq, Option.some.injEq]
      intro he
      apply hne
      have := congrArg String.toList he
      simpa using this

theorem creditStep_eq (c : String) (r : Fields) :
    creditStep c r =
      { r with photographer :=
          if r.photographer = none then (tier2Fields (some c)).photographer
          else r.photographer } := by
  unfold creditStep tier2Fields
  by_cases hp : r.photographer = none
  · simp only [hp, if_true]
    cases hcred : findLabeledCapture ["credit:", "photographer:"] c with
    | none => cases r; simp_all
    | some cap => dsimp only
  · simp only [hp, if_false]

theorem whereStep_eq (c : String) (r : Fields) :
    whereStep c r =
      { r with
        city := if r.city = none ∧ r.country = none then (tier2Fields (some c)).city
                else r.city
        country := if r.city = none ∧ r.country = none then (tier2Fields (some c)).country
                   else r.country } := by
  unfold whereStep tier2Fields tier2Loc
  by_cases hg : r.city = none ∧ r.country = none
  · simp only [hg, if_true, and_self]
    cases hw : findLabeledCapture ["where:"] c with
    | none => cases r; simp_all
    | some cap =>
      dsimp only
      cases hc : cleanTextHelper (some cap) with
      | none => cases r; simp_all
      | some loc =>
        dsimp only
        by_cases hcomma : loc.toList.contains ','
        · simp only [hcomma, if_true]
        · simp only [hcomma, if_false]
          cases r; simp_all
  · simp only [hg, if_false]

theorem whenStep_eq (c : String) (r : Fields) :
    whenStep c r =
      { r with date :=
          if r.date = none then (tier2Fields (some c)).date else r.date } := by
  unfold whenStep tier2Fields
  by_cases hd : r.date = none
  · simp only [hd, if_true]
    cases hw : findLabeledCapture ["when:"] c with
    | none => cases r; simp_all
    | some cap => dsimp only
  · simp only [hd, if_false]

theorem featuringStep_eq (c : String) (r : Fields) :
    featuringStep c r =
      { r with matchEvent :=
          if r.matchEvent = none then (tier2Fields (some c)).matchEvent
          else r.matchEvent } := by
  unfold featuringStep tier2Fields
  by_cases hm : r.matchEvent = none
  · simp only [hm, if_true]
    cases hw : findLabeledCapture ["featuring:"] c with
    | none => cases r; simp_all
    | some cap => dsimp only
  · simp only [hm, if_false]



theorem captionFallback_fields (c : Option String) (r : Fields) :
    captionFallback c r =
      { photographer := if r.photographer = none then (tier2Fields c).photographer
                        else r.photographer
        imageSize := r.imageSize
        fileSize := r.fileSize
        country := if r.city = none ∧ r.country = none then (tier2Fields c).country
                   else r.country
        city := if r.city = none ∧ r.country = none then (tier2Fields c).city
                else r.city
        date := if r.date = none then (tier2Fields c).date else r.date
        matchEvent := if r.matchEvent = none then (tier2Fields c).matchEvent
                      else r.matchEvent } := by
  cases c with
  | none =>
    cases r with
    | mk p i f co ci d m =>
      show Fields.mk p i f co ci d m = _
      simp only [tier2Fields, Fields.mk.injEq]
      refine ⟨?_, trivial, trivial, ?_, ?_, ?_, ?_⟩
      · cases p <;> simp
      · by_cases h : ci = none ∧ co = none
        · simp [h.1, h.2]
        · simp [h]
      · by_cases h : ci = none ∧ co = none
        · simp [h.1, h.2]
        · simp [h]
      · cases d <;> simp
      · cases m <;> simp
  | some cs =>
    show featuringStep cs (whenStep cs (whereStep cs (creditStep cs r))) = _
    rw [creditStep_eq, whereStep_eq, whenStep_eq, featuringStep_eq]



theorem norm_ite {a b : Option String} (P : Prop) [Decidable P]
    (ha : Norm a) (hb : Norm b) : Norm (if P then a else b) := by
  split <;> assumption

theorem normFields_default : NormFields {} :=
  ⟨norm_none, norm_none, norm_none, norm_none, norm_none, norm_none, norm_none⟩

theorem normFields_applyLabel {r : Fields} (h : NormFields r) {v : String}
    (hv : Norm (some v)) (label : String) : NormFields (applyLabel r label v) := by
  obtain ⟨h1, h2, h3, h4, h5, h6, h7⟩ := h
  unfold applyLabel
  split_ifs <;> refine ⟨?_, ?_, ?_, ?_, ?_, ?_, ?_⟩ <;>
    first | assumption | exact norm_chain hv _

theorem normFields_labelFold (items : List (String × String)) :
    NormFields (labelFold items) := by
  unfold labelFold
  have key : ∀ (its : List (String × String)) (r : Fields), NormFields r →
      NormFields (its.foldl
        (fun r item =>
          match cleanTextHelper (some item.2) with
          | none => r
          | some v => applyLabel r (jsToLower item.1) v) r) := by
    intro its
    induction its with
    | nil => intro r h; exact h
    | cons it t ih =>
      intro r h
      simp only [List.foldl_cons]
      cases hc : cleanTextHelper (some it.2) with
      | none => exact ih r h
      | some v => exact ih _ (normFields_applyLabel h (hc ▸ norm_clean (some it.2)) _)
  exact key items {} normFields_default

theorem normFields_tier1 (rd : RawData) : NormFields (tier1Fields rd) := by
  obtain ⟨h1, h2, h3, h4, h5, h6, h7⟩ := normFields_labelFold rd.labelValues
  exact ⟨h1, h2, h3, h4, h5, h6,
    norm_chain (norm_chain (norm_clean rd.caption) (cleanTextHelper rd.title)) _⟩

theorem norm_tier2Loc (cs : String) :
    Norm (tier2Loc cs).1 ∧ Norm (tier2Loc cs).2 := by
  unfold tier2Loc
  cases findLabeledCapture ["where:"] cs with
  | none => exact ⟨norm_none, norm_none⟩
  | some cap =>
    dsimp only
    cases hc : cleanTextHelper (some cap) with
    | none => exact ⟨norm_none, norm_none⟩
    | some loc =>
      dsimp only
      by_cases hcm : loc.toList.contains ','
      · simp only [hcm, if_true]
        exact ⟨norm_clean _, norm_clean _⟩
      · simp only [hcm, if_false]
        exact ⟨hc ▸ norm_clean (some cap), norm_none⟩

theorem norm_labelMatch (labels : List String) (cs : String) :
    Norm (match findLabeledCapture labels cs with
          | some cap => cleanTextHelper (some cap)
          | none => none) := by
  cases findLabeledCapture labels cs with
  | none => exact norm_none
  | some cap => exact norm_clean _

theorem normFields_tier2 (c : Option String) : NormFields (tier2Fields c) := by
  cases c with
  | none => exact normFields_default
  | some cs =>
    obtain ⟨hl1, hl2⟩ := norm_tier2Loc cs
    exact ⟨norm_labelMatch _ _, norm_none, norm_none, hl2, hl1,
      norm_labelMatch _ _, norm_labelMatch _ _⟩



theorem normFields_captionFallback (c : Option String) {r : Fields}
    (h : NormFields r) : NormFields (captionFallback c r) := by
  obtain ⟨h1, h2, h3, h4, h5, h6, h7⟩ := h
  obtain ⟨g1, g2, g3, g4, g5, g6, g7⟩ := normFields_tier2 c
  rw [captionFallback_fields]
  exact ⟨norm_ite _ g1 h1, h2, h3, norm_ite _ g4 h4, norm_ite _ g5 h5,
    norm_ite _ g6 h6, norm_ite _ g7 h7⟩

theorem nextDataMerge_eq (nd : Option NextData) (r : Fields) (h : NormFields r) :
    nextDataMerge nd r =
      { photographer := jsOrS r.photographer (tier3Fields nd).photographer
        imageSize := jsOrS r.imageSize (tier3Fields nd).imageSize
        fileSize := jsOrS r.fileSize (tier3Fields nd).fileSize
        country := jsOrS r.country (tier3Fields nd).country
        city := jsOrS r.city (tier3Fields nd).city
        date := jsOrS r.date (tier3Fields nd).date
        matchEvent := jsOrS r.matchEvent (tier3Fields nd).matchEvent } := by
  obtain ⟨h1, h2, h3, h4, h5, h6, h7⟩ := h
  cases nd with
  | some d => rfl
  | none =>
    show r = _
    cases r with
    | mk p i f co ci d m =>
      simp only [tier3Fields, Fields.mk.injEq]
      exact ⟨(jsOrS_norm_none h1).symm, (jsOrS_norm_none h2).symm,
        (jsOrS_norm_none h3).symm, (jsOrS_norm_none h4).symm,
        (jsOrS_norm_none h5).symm, (jsOrS_norm_none h6).symm,
        (jsOrS_norm_none h7).symm⟩

theorem baseImage_tier0 (inp : ExtractInputs) :
    (baseImage inp).photographer = (tier0Fields inp.cached).photographer ∧
    (baseImage inp).imageSize = (tier0Fields inp.cached).imageSize ∧
    (baseImage inp).fileSize = (tier0Fields inp.cached).fileSize ∧
    (baseImage inp).country = (tier0Fields inp.cached).country ∧
    (baseImage inp).city = (tier0Fields inp.cached).city ∧
    (baseImage inp).date = (tier0Fields inp.cached).date ∧
    (baseImage inp).matchEvent = (tier0Fields inp.cached).matchEvent := by
  unfold baseImage tier0Fields
  cases inp.cached <;> exact ⟨rfl, rfl, rfl, rfl, rfl, rfl, rfl⟩

theorem chain_ite_self {a : Option String} (ha : Norm a) (b c : Option String) :
    jsOrS (if a = none then b else a) c = jsOrS a (jsOrS b c) := by
  cases a with
  | none => simp [jsOrS]
  | some s =>
    have hs : s ≠ "" := by simpa [Norm] using ha
    simp [jsOrS, hs]

theorem chain_ite_guard {a : Option String} {G : Prop} [Decidable G]
    (hG : G → a = none) (b c : Option String) :
    jsOrS (if G then b else a) c = jsOrS a (jsOrS (if G then b else none) c) := by
  by_cases hg : G
  · simp [hg, hG hg, jsOrS]
  · simp [hg]
    cases a with
    | none => rfl
    | some s => by_cases hs : s = "" <;> simp [jsOrS, hs]

theorem tier2_imageSize_none (c : Option String) :
    (tier2Fields c).imageSize = none := by
  cases c <;> rfl

theorem tier2_fileSize_none (c : Option String) :
    (tier2Fields c).fileSize = none := by
  cases c <;> rfl



/-- C1 amended: for every extraction with detail parsing enabled, detail
navigation successful and raw page data `rd`, each final field equals the
first non-null supply among the tiers in order network cache, structured
list parse, caption regex fallback, embedded hydration JSON — except that
the caption fallback's city and country supplies are taken only when the
structured list parse left BOTH city and country null (the two fields are
coupled by the `Where:` guard); no tier ever overwrites an earlier
non-null value, and in particular Tier 0's creditName "A" beats Tier 1's
"B". -/
theorem c1_tier_win_rule :
    ∀ (inp : ExtractInputs) (rd : RawData),
      inp.extractDetails = true →
      (detailNavigate inp.navOracle).1.isSome = true →
      inp.evalResult = some rd →
      ((extractImageData inp).photographer
          = jsOrS (tier0Fields inp.cached).photographer
              (jsOrS (tier1Fields rd).photographer
                (jsOrS (tier2Fields (cleanTextHelper rd.caption)).photographer
                  (tier3Fields rd.nextData).photographer))
      ∧ (extractImageData inp).imageSize
          = jsOrS (tier0Fields inp.cached).imageSize
              (jsOrS (tier1Fields rd).imageSize
                (jsOrS (tier2Fields (cleanTextHelper rd.caption)).imageSize
                  (tier3Fields rd.nextData).imageSize))
      ∧ (extractImageData inp).fileSize
          = jsOrS (tier0Fields inp.cached).fileSize
              (jsOrS (tier1Fields rd).fileSize
                (jsOrS (tier2Fields (cleanTextHelper rd.caption)).fileSize
                  (tier3Fields rd.nextData).fileSize))
      ∧ (extractImageData inp).country
          = jsOrS (tier0Fields inp.cached).country
              (jsOrS (tier1Fields rd).country
                (jsOrS
                  (if (tier1Fields rd).city = none ∧ (tier1Fields rd).country = none
                   then (tier2Fields (cleanTextHelper rd.caption)).country
                   else none)
                  (tier3Fields rd.nextData).country))
      ∧ (extractImageData inp).city
          = jsOrS (tier0Fields inp.cached).city
              (jsOrS (tier1Fields rd).city
                (jsOrS
                  (if (tier1Fields rd).city = none ∧ (tier1Fields rd).country = none
                   then (tier2Fields (cleanTextHelper rd.caption)).city
                   else none)
                  (tier3Fields rd.nextData).city))
      ∧ (extractImageData inp).date
          = jsOrS (tier0Fields inp.cached).date
              (jsOrS (tier1Fields rd).date
                (jsOrS (tier2Fields (cleanTextHelper rd.caption)).date
                  (tier3Fields rd.nextData).date))
      ∧ (extractImageData inp).matchEvent
          = jsOrS (tier0Fields inp.cached).matchEvent
              (jsOrS (tier1Fields rd).matchEvent
                (jsOrS (tier2Fields (cleanTextHelper rd.caption)).matchEvent
                  (tier3Fields rd.nextData).matchEvent))) := by
  intro inp rd hd hnav hev
  obtain ⟨a, ha⟩ := Option.isSome_iff_exists.mp hnav
  have hrun : extractImageData inp =
      { baseImage inp with
        photographer := jsOrS (baseImage inp).photographer (parseMetadata rd).photographer
        imageSize := jsOrS (baseImage inp).imageSize (parseMetadata rd).imageSize
        fileSize := jsOrS (baseImage inp).fileSize (parseMetadata rd).fileSize
        country := jsOrS (baseImage inp).country (parseMetadata rd).country
        city := jsOrS (baseImage inp).city (parseMetadata rd).city
        date := jsOrS (baseImage inp).date (parseMetadata rd).date
        matchEvent := jsOrS (baseImage inp).matchEvent (parseMetadata rd).matchEvent } := by
    unfold extractImageData
    simp only [hd, ha, hev]
    rw [if_pos trivial]
  obtain ⟨b1, b2, b3, b4, b5, b6, b7⟩ := baseImage_tier0 inp
  have hmeta : parseMetadata rd =
      nextDataMerge rd.nextData
        (captionFallback (cleanTextHelper rd.caption) (tier1Fields rd)) := rfl
  have hnorm1 := normFields_tier1 rd
  have hnm := nextDataMerge_eq rd.nextData _
    (normFields_captionFallback (cleanTextHelper rd.caption) hnorm1)
  have hcf := captionFallback_fields (cleanTextHelper rd.caption) (tier1Fields rd)
  obtain ⟨n1, n2, n3, n4, n5, n6, n7⟩ := hnorm1
  rw [hrun]
  dsimp only
  rw [hmeta, hnm, hcf]
  dsimp only
  rw [b1, b2, b3, b4, b5, b6, b7]
  refine ⟨?_, ?_, ?_, ?_, ?_, ?_, ?_⟩
  · exact congrArg (jsOrS _) (chain_ite_self n1 _ _)
  · rw [tier2_imageSize_none]
    rfl
  · rw [tier2_fileSize_none]
    rfl
  · exact congrArg (jsOrS _) (chain_ite_guard (fun hg => hg.2) _ _)
  · exact congrArg (jsOrS _) (chain_ite_guard (fun hg => hg.1) _ _)
  · exact congrArg (jsOrS _) (chain_ite_self n6 _ _)
  · exact congrArg (jsOrS _) (chain_ite_self n7 _ _)

/-- C1 counterexample: with the structured list supplying `city` (label
"Location" -> "Berlin") and the caption carrying `Where: Paris, France`,
the caption fallback is the first (and only) tier supplying a non-null
`country` ("France"), yet the final record's country is null: the
city/country pair is guarded jointly, so tiers are not independent per
field. -/
theorem c1_field_win_counterexample :
    (extractImageData cexInputs).country = none ∧
      (tier2Fields (cleanTextHelper cexRaw.caption)).country = some "France" ∧
      (tier0Fields cexInputs.cached).country = none ∧
      (tier1Fields cexRaw).country = none ∧
      (tier3Fields cexRaw.nextData).country = none := by
  exact ⟨by decide, by decide, by decide, by decide, by decide⟩


/-- Witness for C1 amended: Tier 0 supplies creditName "A" and Tier 1
would supply "B"; the final value is "A". -/
theorem c1_tier_win_rule_witness :
    (extractImageData abInputs).photographer = some "A" := by
  have h := (c1_tier_win_rule abInputs { labelValues := [("Credit", "B")] }
    rfl (by decide) rfl).1
  rw [h]
  decide


end SmartFrame
